import Mathlib

/-!
Shallow embedding of the `progress` terminal progress-indicator library
(`progress/__init__.py`, version 1.5.1).

The Python classes `Infinite` and `Progress` are modelled by one record
`State` carrying every instance attribute that the operations read or
write, plus two observation fields that record the externally visible
effects: `output`, the list of strings printed to the stream (one entry
per `print` call), and `handlerRegistered`, whether the `atexit` handler
installed at construction is currently registered.

The monotonic clock is passed explicitly: every time-dependent operation
takes the current clock reading `now : ℚ`.  Python's `int(x)` truncation
toward zero is `pyint`.  Operations that can raise (`is_tty` raises an
AttributeError when the stream cannot report interactivity) return
`Except String State`; operations that cannot raise return `State`.
-/

namespace ProgressPkg

/-- Escape sequence emitted to hide the terminal cursor (`HIDE_CURSOR`). -/
def HIDE_CURSOR : String := "\x1b[?25l"

/-- Escape sequence emitted to show the terminal cursor (`SHOW_CURSOR`). -/
def SHOW_CURSOR : String := "\x1b[?25h"

/-- A file-like output object.  `isatty = some b` models a stream whose
`isatty()` method returns `b`; `isatty = none` models an object with no
`isatty` attribute (probing it raises `AttributeError`). -/
structure FileObj where
  isatty : Option Bool
  deriving DecidableEq

/-- The instance state of an indicator (`Infinite` / `Progress`).
`max` is the bounded variant's target (Python `Progress.max`); it is
present but unread in the base `Infinite` operations. -/
structure State where
  index : Int
  start_ts : ℚ
  total_used_ts : Int
  width : Nat
  message : String
  shutdown : Bool
  file : Option FileObj
  check_tty : Bool
  hide_cursor : Bool
  max : Int
  output : List String
  handlerRegistered : Bool
  deriving DecidableEq

/-- Configuration passed as keyword arguments to the constructor. -/
structure Config where
  file : Option FileObj
  check_tty : Bool
  hide_cursor : Bool
  max : Option Int
  deriving DecidableEq

/-- Python `int(x)`: truncation toward zero. -/
def pyint (q : ℚ) : Int := if q < 0 then ⌈q⌉ else ⌊q⌋

/-- Python `s.ljust(w)`: pad `s` on the right with spaces to length `w`. -/
def ljust (s : String) (w : Nat) : String :=
  s ++ String.mk (List.replicate (w - s.length) ' ')

namespace Infinite

/-- Model of `Infinite.is_tty`: `self.file.isatty() if self.check_tty else True`;
raises `AttributeError` when the file object cannot report interactivity. -/
def is_tty (st : State) : Except String Bool :=
  if st.check_tty then
    match st.file with
    | some f =>
      match f.isatty with
      | some b => Except.ok b
      | none => Except.error "AttributeError: object has no attribute isatty"
    | none => Except.error "AttributeError: object has no attribute isatty"
  else
    Except.ok true

/-- The guard `self.file and self.is_tty()` that every rendering
operation evaluates before touching the stream. -/
def renderGuard (st : State) : Except String Bool :=
  match st.file with
  | none => Except.ok false
  | some _ => is_tty st

/-- Model of `Infinite.__init__`: set the counters, apply the configuration, and,
when the stream is present and interactive, hide the cursor (registering
the atexit handler) and print the message. -/
def init (now : ℚ) (message : String) (cfg : Config) : Except String State :=
  let st0 : State :=
    { index := 0, start_ts := now, total_used_ts := 0, width := 0,
      message := message, shutdown := false, file := cfg.file,
      check_tty := cfg.check_tty, hide_cursor := cfg.hide_cursor,
      max := 100, output := [], handlerRegistered := false }
  (renderGuard st0).bind fun g =>
    if g then
      let st1 :=
        if st0.hide_cursor then
          { st0 with output := st0.output ++ [HIDE_CURSOR], handlerRegistered := true }
        else st0
      Except.ok { st1 with output := st1.output ++ [message] }
    else
      Except.ok st0

/-- Model of `Infinite.elapsed`: `int(monotonic() - self.start_ts) + self._total_used_ts`. -/
def elapsed (now : ℚ) (st : State) : Int :=
  pyint (now - st.start_ts) + st.total_used_ts

/-- Model of `Infinite.avg`: `self.elapsed / self.index` when `index > 0`, else `0`. -/
def avg (now : ℚ) (st : State) : ℚ :=
  if 0 < st.index then (elapsed now st : ℚ) / (st.index : ℚ) else 0

/-- Model of `Infinite.update`: a no-op. -/
def update (st : State) : State := st

/-- Model of `Infinite.start`: a no-op. -/
def start (st : State) : State := st

/-- Model of `Infinite.clearln`: emit carriage return + clear-to-end-of-line when
rendering is enabled. -/
def clearln (st : State) : Except String State :=
  (renderGuard st).bind fun g =>
    if g then Except.ok { st with output := st.output ++ ["\r\x1b[K"] }
    else Except.ok st

/-- Model of `Infinite.write`: emit `\r` + `message` + `s.ljust(self._width)`, then
update `_width` to `max(self._width, len(s))`. -/
def write (s : String) (st : State) : Except String State :=
  (renderGuard st).bind fun g =>
    if g then
      let line := st.message ++ ljust s st.width
      Except.ok { st with output := st.output ++ ["\r" ++ line],
                          width := Nat.max st.width s.length }
    else Except.ok st

/-- Model of `Infinite.writeln`: clear the line then print `line` verbatim. -/
def writeln (line : String) (st : State) : Except String State :=
  (renderGuard st).bind fun g =>
    if g then
      (clearln st).bind fun st1 =>
        Except.ok { st1 with output := st1.output ++ [line] }
    else Except.ok st

/-- Model of `Infinite.finish`: when rendering is enabled, set `_shutdown`, bank
the elapsed time, print a newline, and when `hide_cursor` is set, print
the show-cursor sequence and deregister the atexit handler. -/
def finish (now : ℚ) (st : State) : Except String State :=
  (renderGuard st).bind fun g =>
    if g then
      let st1 := { st with shutdown := true, total_used_ts := elapsed now st }
      let st2 := { st1 with output := st1.output ++ ["\n"] }
      if st.hide_cursor then
        Except.ok { st2 with output := st2.output ++ [SHOW_CURSOR],
                             handlerRegistered := false }
      else Except.ok st2
    else Except.ok st

/-- Model of `Infinite.next`: when `_shutdown` is set, restart timing; then add
`n` to `index` (and call the no-op `update`). -/
def next (now : ℚ) (n : Int) (st : State) : State :=
  let st1 := if st.shutdown then { st with start_ts := now, shutdown := false } else st
  update { st1 with index := st1.index + n }

end Infinite

namespace Progress

/-- Model of `Progress.__init__`: base construction, then `self.max =
kwargs.get('max', 100)`. -/
def init (now : ℚ) (message : String) (cfg : Config) : Except String State :=
  (Infinite.init now message cfg).map fun st => { st with max := cfg.max.getD 100 }

/-- Model of `Progress.progress`: `1` when `max <= 0`, else `min(1, index / max)`. -/
def progress (st : State) : ℚ :=
  if st.max ≤ 0 then 1 else min 1 ((st.index : ℚ) / (st.max : ℚ))

/-- Model of `Progress.percent`: `self.progress * 100`. -/
def percent (st : State) : ℚ := progress st * 100

/-- Model of `Progress.remaining`: `max(self.max - self.index, 0)`. -/
def remaining (st : State) : Int := max (st.max - st.index) 0

/-- Model of `Progress.eta`: `int(ceil(self.avg * self.remaining))`. -/
def eta (now : ℚ) (st : State) : Int :=
  ⌈Infinite.avg now st * (remaining st : ℚ)⌉

/-- Model of `Progress.start`: calls `self.update()` (a no-op redraw hook). -/
def start (st : State) : State := Infinite.update st

/-- Model of `Progress.goto`: `self.next(index - self.index)`. -/
def goto (now : ℚ) (index : Int) (st : State) : State :=
  Infinite.next now (index - st.index) st

end Progress

/-- A Python sequence argument to `Progress.iter`: its elements, and
whether `len()` succeeds on it (`hasLen = false` models a stream whose
length raises `TypeError`). -/
structure PySeq (α : Type) where
  elems : List α
  hasLen : Bool

namespace Progress

/-- State of `Progress.iter` at generator entry: `self.max = len(it)`
when the length is determinable (a raised `TypeError` is swallowed),
then the `with self` block entry calls `self.start()`. -/
def iter_entry {α : Type} (sq : PySeq α) (st : State) : State :=
  let st1 := if sq.hasLen then { st with max := (sq.elems.length : Int) } else st
  start st1

/-- Full consumption of `Progress.iter`: entry, one `next()` per yielded
element, and the guaranteed `finish()` on exit of the `with` block. -/
def iter_run {α : Type} (now : ℚ) (sq : PySeq α) (st : State) : Except String State :=
  let stN := sq.elems.foldl (fun s _ => Infinite.next now 1 s) (iter_entry sq st)
  Infinite.finish now stN

end Progress

/-- Rendering is disabled for this state: the stream is absent, or it is
non-interactive while TTY-checking is enabled. -/
def renderDisabled (st : State) : Prop :=
  st.file = none ∨ ∃ f, st.file = some f ∧ f.isatty = some false ∧ st.check_tty = true

/-- Rendering is disabled for this configuration (same condition as
`renderDisabled`, stated on the constructor arguments). -/
def configDisabled (cfg : Config) : Prop :=
  cfg.file = none ∨ ∃ f, cfg.file = some f ∧ f.isatty = some false ∧ cfg.check_tty = true

/-- The single line printed by one `write(s)` call: carriage return,
message, and the fragment padded to the width tracked before the call. -/
def writeLine (msg : String) (w : Nat) (s : String) : String :=
  "\r" ++ (msg ++ ljust s w)

/-- The lines a run of `write` calls emits, threading the tracked width
exactly as `write` does. -/
def emittedLines (msg : String) (w : Nat) : List String → List String
  | [] => []
  | s :: ss => writeLine msg w s :: emittedLines msg (Nat.max w s.length) ss

/-- A sequence of `write` calls. -/
def writeRun : List String → State → Except String State
  | [], st => Except.ok st
  | s :: ss, st => (Infinite.write s st).bind (writeRun ss)

/-- One public operation of the indicator, for quantifying over call
sequences. -/
inductive Op where
  | write (s : String)
  | writeln (s : String)
  | clearln
  | update
  | start
  | finish (now : ℚ)
  | next (now : ℚ) (n : Int)
  | goto (now : ℚ) (k : Int)

/-- Apply one operation to a state. -/
def applyOp : Op → State → Except String State
  | Op.write s, st => Infinite.write s st
  | Op.writeln s, st => Infinite.writeln s st
  | Op.clearln, st => Infinite.clearln st
  | Op.update, st => Except.ok (Infinite.update st)
  | Op.start, st => Except.ok (Infinite.start st)
  | Op.finish now, st => Infinite.finish now st
  | Op.next now n, st => Except.ok (Infinite.next now n st)
  | Op.goto now k, st => Except.ok (Progress.goto now k st)

/-- Apply a sequence of operations to a state. -/
def runOps : List Op → State → Except String State
  | [], st => Except.ok st
  | op :: ops, st => (applyOp op st).bind (runOps ops)

/-! Concrete states and configurations used by witnesses and
counterexamples. -/

/-- Configuration with no output stream. -/
def cfgNone : Config :=
  { file := none, check_tty := true, hide_cursor := true, max := none }

/-- Configuration whose stream reports `isatty() = False`. -/
def cfgNonTty : Config :=
  { file := some ⟨some false⟩, check_tty := true, hide_cursor := true, max := none }

/-- The state a bounded indicator has right after `Progress.init 0 ""
cfgNone`: fresh counters and no rendering. -/
def stDisabled : State :=
  { index := 0, start_ts := 0, total_used_ts := 0, width := 0, message := "",
    shutdown := false, file := none, check_tty := true, hide_cursor := true,
    max := 100, output := [], handlerRegistered := false }

/-- A fresh indicator state over an interactive stream. -/
def stTty : State := { stDisabled with file := some ⟨some true⟩ }

/-- State `stTty` after one `finish()` at clock reading 0. -/
def stTtyFin : State :=
  { stTty with shutdown := true, total_used_ts := 0,
               output := ["\n", SHOW_CURSOR], handlerRegistered := false }

/-- State `stTty` after one `write "ab"` call. -/
def stW : State := { stTty with output := ["\rab"], width := 2 }

/-- A bounded-indicator state with `index = 1`, `max = 4`. -/
def stC2 : State := { stDisabled with index := 1, max := 4 }

/-- A bounded-indicator state with `max = 0`. -/
def stMax0 : State := { stDisabled with max := 0 }

/-- A bounded-indicator state with `index = 2`, `max = 5`; at clock
reading 5 its average rate is 5/2 and 3 steps remain. -/
def stC9 : State := { stDisabled with index := 2, max := 5 }

/-! Helper lemmas: characterizations of the operations by the value of
the rendering guard. -/

theorem renderGuard_congr {st st' : State} (h1 : st'.file = st.file)
    (h2 : st'.check_tty = st.check_tty) :
    Infinite.renderGuard st' = Infinite.renderGuard st := by
  simp only [Infinite.renderGuard, Infinite.is_tty, h1, h2]

theorem renderGuard_of_disabled {st : State} (h : renderDisabled st) :
    Infinite.renderGuard st = Except.ok false := by
  rcases h with h | ⟨f, hf, hi, hc⟩
  · simp [Infinite.renderGuard, h]
  · simp [Infinite.renderGuard, Infinite.is_tty, hf, hi, hc]

theorem write_ok {st : State} (s : String)
    (hg : Infinite.renderGuard st = Except.ok true) :
    Infinite.write s st =
      Except.ok { st with output := st.output ++ [writeLine st.message st.width s],
                          width := Nat.max st.width s.length } := by
  simp [Infinite.write, hg, Except.bind, writeLine]

theorem write_skip {st : State} (s : String)
    (hg : Infinite.renderGuard st = Except.ok false) :
    Infinite.write s st = Except.ok st := by
  simp [Infinite.write, hg, Except.bind]

theorem clearln_skip {st : State}
    (hg : Infinite.renderGuard st = Except.ok false) :
    Infinite.clearln st = Except.ok st := by
  simp [Infinite.clearln, hg, Except.bind]

theorem writeln_skip {st : State} (line : String)
    (hg : Infinite.renderGuard st = Except.ok false) :
    Infinite.writeln line st = Except.ok st := by
  simp [Infinite.writeln, hg, Except.bind]

theorem finish_ok {st : State} (now : ℚ)
    (hg : Infinite.renderGuard st = Except.ok true) (hc : st.hide_cursor = true) :
    Infinite.finish now st =
      Except.ok { st with shutdown := true, total_used_ts := Infinite.elapsed now st,
                          output := st.output ++ ["\n", SHOW_CURSOR],
                          handlerRegistered := false } := by
  simp [Infinite.finish, hg, hc, Except.bind]

theorem finish_ok_nohide {st : State} (now : ℚ)
    (hg : Infinite.renderGuard st = Except.ok true) (hc : st.hide_cursor = false) :
    Infinite.finish now st =
      Except.ok { st with shutdown := true, total_used_ts := Infinite.elapsed now st,
                          output := st.output ++ ["\n"] } := by
  simp [Infinite.finish, hg, hc, Except.bind]

theorem finish_skip {st : State} (now : ℚ)
    (hg : Infinite.renderGuard st = Except.ok false) :
    Infinite.finish now st = Except.ok st := by
  simp [Infinite.finish, hg, Except.bind]

theorem next_eq (now : ℚ) (n : Int) (st : State) :
    Infinite.next now n st =
      if st.shutdown then { st with start_ts := now, shutdown := false, index := st.index + n }
      else { st with index := st.index + n } := by
  simp only [Infinite.next, Infinite.update]
  split <;> rfl

theorem write_cases {st st' : State} {s : String}
    (h : Infinite.write s st = Except.ok st') :
    (Infinite.renderGuard st = Except.ok true ∧
      st' = { st with output := st.output ++ [writeLine st.message st.width s],
                      width := Nat.max st.width s.length }) ∨
    (Infinite.renderGuard st = Except.ok false ∧ st' = st) := by
  rcases hg : Infinite.renderGuard st with e | g
  · simp [Infinite.write, hg, Except.bind] at h
  · cases g
    · right
      rw [write_skip s hg] at h
      exact ⟨rfl, by injection h with h; exact h.symm⟩
    · left
      rw [write_ok s hg] at h
      exact ⟨rfl, by injection h with h; exact h.symm⟩

theorem finish_cases {st st' : State} {now : ℚ}
    (h : Infinite.finish now st = Except.ok st') :
    (Infinite.renderGuard st = Except.ok true ∧ st'.shutdown = true ∧
      st'.total_used_ts = Infinite.elapsed now st ∧ st'.start_ts = st.start_ts ∧
      st'.index = st.index ∧ st'.width = st.width ∧ st'.file = st.file ∧
      st'.check_tty = st.check_tty ∧ st'.hide_cursor = st.hide_cursor ∧
      st'.message = st.message ∧ st'.max = st.max) ∨
    (Infinite.renderGuard st = Except.ok false ∧ st' = st) := by
  rcases hg : Infinite.renderGuard st with e | g
  · simp [Infinite.finish, hg, Except.bind] at h
  · cases g
    · right
      rw [finish_skip now hg] at h
      exact ⟨rfl, by injection h with h; exact h.symm⟩
    · left
      cases hc : st.hide_cursor
      · rw [finish_ok_nohide now hg hc] at h
        injection h with h
        subst h
        simp [hc]
      · rw [finish_ok now hg hc] at h
        injection h with h
        subst h
        simp [hc]

theorem pyint_mono {a b : ℚ} (h : a ≤ b) : pyint a ≤ pyint b := by
  unfold pyint
  split_ifs with h1 h2 h2
  · exact Int.ceil_mono h
  · refine le_trans (Int.ceil_le.mpr ?_) (Int.floor_nonneg.mpr (not_lt.mp h2))
    exact_mod_cast le_of_lt h1
  · exact absurd (lt_of_le_of_lt h h2) h1
  · exact Int.floor_mono h

theorem pyint_zero : pyint 0 = 0 := by
  simp [pyint]

theorem nat_max_eq (a b : Nat) : Nat.max a b = if a ≤ b then b else a := rfl

theorem le_nat_max_left (a b : Nat) : a ≤ Nat.max a b := by
  rw [nat_max_eq]; split_ifs with h
  · exact h
  · exact le_refl a

theorem length_ljust (s : String) (w : Nat) :
    (ljust s w).length = Nat.max w s.length := by
  simp only [ljust, String.length_append]
  have h1 : (String.mk (List.replicate (w - s.length) ' ')).length = w - s.length := by
    show (List.replicate (w - s.length) ' ').length = w - s.length
    exact List.length_replicate _ _
  rw [h1, nat_max_eq]
  split_ifs <;> omega

theorem length_writeLine (msg : String) (w : Nat) (s : String) :
    (writeLine msg w s).length = 1 + msg.length + Nat.max w s.length := by
  simp only [writeLine, String.length_append, length_ljust]
  have h1 : ("\r" : String).length = 1 := rfl
  omega

theorem emittedLines_length_lb (msg : String) :
    ∀ (ss : List String) (w : Nat) (x : String), x ∈ emittedLines msg w ss →
      1 + msg.length + w ≤ x.length := by
  intro ss
  induction ss with
  | nil => intro w x hx; simp [emittedLines] at hx
  | cons s ss ih =>
    intro w x hx
    rcases List.mem_cons.mp hx with hx | hx
    · rw [hx, length_writeLine]
      have h3 := le_nat_max_left w s.length
      omega
    · have h2 := ih (Nat.max w s.length) x hx
      have h3 := le_nat_max_left w s.length
      omega

theorem emittedLines_pairwise (msg : String) :
    ∀ (ss : List String) (w : Nat),
      List.Pairwise (fun a b => a.length ≤ b.length) (emittedLines msg w ss) := by
  intro ss
  induction ss with
  | nil => intro w; simp [emittedLines]
  | cons s ss ih =>
    intro w
    refine List.Pairwise.cons ?_ (ih (Nat.max w s.length))
    intro x hx
    have h2 := emittedLines_length_lb msg ss (Nat.max w s.length) x hx
    rw [length_writeLine]
    omega

theorem renderGuard_update (st : State) (o : List String) (w : Nat) :
    Infinite.renderGuard { st with output := o, width := w } =
      Infinite.renderGuard st :=
  renderGuard_congr rfl rfl

theorem writeRun_ok {st : State} (ss : List String)
    (hg : Infinite.renderGuard st = Except.ok true) :
    ∃ st', writeRun ss st = Except.ok st' ∧
      st'.output = st.output ++ emittedLines st.message st.width ss := by
  induction ss generalizing st with
  | nil => exact ⟨st, rfl, by simp [emittedLines]⟩
  | cons s ss ih =>
    have hw := write_ok s hg
    have hg1 : Infinite.renderGuard
        { st with output := st.output ++ [writeLine st.message st.width s],
                  width := Nat.max st.width s.length } = Except.ok true := by
      rw [renderGuard_update]; exact hg
    obtain ⟨st', hrun, hout⟩ := ih hg1
    refine ⟨st', ?_, ?_⟩
    · simp only [writeRun, hw, Except.bind]
      exact hrun
    · rw [hout]
      simp [emittedLines, List.append_assoc]

theorem init_width {now : ℚ} {message : String} {cfg : Config} {st0 : State}
    (h : Infinite.init now message cfg = Except.ok st0) : st0.width = 0 := by
  simp only [Infinite.init, Except.bind] at h
  split at h
  · exact absurd h (by simp)
  · split at h
    · injection h with h
      subst h
      show (if cfg.hide_cursor then _ else _ : State).width = 0
      split <;> rfl
    · injection h with h
      subst h
      rfl

theorem init_disabled (now : ℚ) (message : String) {cfg : Config}
    (hd : configDisabled cfg) :
    Infinite.init now message cfg = Except.ok
      { index := 0, start_ts := now, total_used_ts := 0, width := 0,
        message := message, shutdown := false, file := cfg.file,
        check_tty := cfg.check_tty, hide_cursor := cfg.hide_cursor,
        max := 100, output := [], handlerRegistered := false } := by
  have hg : Infinite.renderGuard
      { index := 0, start_ts := now, total_used_ts := 0, width := 0,
        message := message, shutdown := false, file := cfg.file,
        check_tty := cfg.check_tty, hide_cursor := cfg.hide_cursor,
        max := 100, output := [], handlerRegistered := false } = Except.ok false := by
    refine renderGuard_of_disabled ?_
    rcases hd with hd | ⟨f, hf, hi, hc⟩
    · exact Or.inl hd
    · exact Or.inr ⟨f, hf, hi, hc⟩
  simp [Infinite.init, hg, Except.bind]

theorem next_index (now : ℚ) (n : Int) (st : State) :
    (Infinite.next now n st).index = st.index + n := by
  rw [next_eq]; split <;> rfl

theorem next_frame (now : ℚ) (n : Int) (st : State) :
    (Infinite.next now n st).width = st.width ∧
      (Infinite.next now n st).output = st.output ∧
      (Infinite.next now n st).handlerRegistered = st.handlerRegistered ∧
      (Infinite.next now n st).file = st.file ∧
      (Infinite.next now n st).check_tty = st.check_tty ∧
      (Infinite.next now n st).total_used_ts = st.total_used_ts ∧
      (Infinite.next now n st).max = st.max := by
  rw [next_eq]; split <;> exact ⟨rfl, rfl, rfl, rfl, rfl, rfl, rfl⟩

theorem foldl_next_index {α : Type} (now : ℚ) (l : List α) (st : State) :
    (l.foldl (fun s _ => Infinite.next now 1 s) st).index =
      st.index + (l.length : Int) := by
  induction l generalizing st with
  | nil => simp
  | cons a l ih =>
    simp only [List.foldl_cons, List.length_cons, ih, next_index]
    push_cast
    ring

theorem iter_entry_fields {α : Type} (sq : PySeq α) (st : State) :
    (Progress.iter_entry sq st).index = st.index ∧
      ((Progress.iter_entry sq st).max =
        if sq.hasLen then (sq.elems.length : Int) else st.max) := by
  unfold Progress.iter_entry Progress.start Infinite.update
  split <;> exact ⟨rfl, rfl⟩

theorem disabled_congr {st st' : State} (h : renderDisabled st)
    (h1 : st'.file = st.file) (h2 : st'.check_tty = st.check_tty) :
    renderDisabled st' := by
  rcases h with h | ⟨f, hf, hi, hc⟩
  · exact Or.inl (h1.trans h)
  · exact Or.inr ⟨f, h1.trans hf, hi, h2.trans hc⟩

theorem applyOp_silent {st : State} (op : Op) (h : renderDisabled st) :
    ∃ st', applyOp op st = Except.ok st' ∧ st'.output = st.output ∧
      st'.handlerRegistered = st.handlerRegistered ∧ renderDisabled st' := by
  have hg := renderGuard_of_disabled h
  cases op with
  | write s => exact ⟨st, write_skip s hg, rfl, rfl, h⟩
  | writeln s => exact ⟨st, writeln_skip s hg, rfl, rfl, h⟩
  | clearln => exact ⟨st, clearln_skip hg, rfl, rfl, h⟩
  | update => exact ⟨st, rfl, rfl, rfl, h⟩
  | start => exact ⟨st, rfl, rfl, rfl, h⟩
  | finish now => exact ⟨st, finish_skip now hg, rfl, rfl, h⟩
  | next now n =>
    obtain ⟨-, ho, hh, hf, hct, -, -⟩ := next_frame now n st
    exact ⟨Infinite.next now n st, rfl, ho, hh, disabled_congr h hf hct⟩
  | goto now k =>
    obtain ⟨-, ho, hh, hf, hct, -, -⟩ := next_frame now (k - st.index) st
    exact ⟨Progress.goto now k st, rfl, ho, hh, disabled_congr h hf hct⟩

theorem runOps_silent {st : State} (ops : List Op) (h : renderDisabled st) :
    ∃ st', runOps ops st = Except.ok st' ∧ st'.output = st.output ∧
      st'.handlerRegistered = st.handlerRegistered := by
  induction ops generalizing st with
  | nil => exact ⟨st, rfl, rfl, rfl⟩
  | cons op ops ih =>
    obtain ⟨st1, h1, ho1, hh1, hd1⟩ := applyOp_silent op h
    obtain ⟨st', h2, ho2, hh2⟩ := ih hd1
    refine ⟨st', ?_, ho2.trans ho1, hh2.trans hh1⟩
    simp only [runOps, h1, Except.bind]
    exact h2

/-! Claim theorems. -/

/-- C1 counterexample: with rendering enabled (interactive stream) and
cursor-hiding on, the first `finish()` emits one show-cursor sequence and
a second `finish()` immediately after emits another one: the trace then
holds two `SHOW_CURSOR` entries, refuting "does not emit a second
show-cursor escape sequence". -/
theorem finish_twice_reemits_cursor :
    (Infinite.finish 0 stTty).map (fun st => st.output.count SHOW_CURSOR) =
        Except.ok 1 ∧
      ((Infinite.finish 0 stTty).bind (Infinite.finish 0)).map
        (fun st => st.output.count SHOW_CURSOR) = Except.ok 2 :=
  ⟨rfl, rfl⟩

/-- C1 (amended): for every indicator whose rendering is enabled and
whose cursor-hiding is on, a second `finish()` immediately after a first
one does not raise — the exit handler stays deregistered, and
deregistering again is a no-op — but it does emit a second newline and a
second show-cursor escape sequence to the stream. -/
theorem finish_twice_safe_but_reemits (st : State) (now1 now2 : ℚ)
    (hg : Infinite.renderGuard st = Except.ok true) (hc : st.hide_cursor = true) :
    ∃ st1 st2, Infinite.finish now1 st = Except.ok st1 ∧
      Infinite.finish now2 st1 = Except.ok st2 ∧
      st2.output = st1.output ++ ["\n", SHOW_CURSOR] ∧
      st1.handlerRegistered = false ∧ st2.handlerRegistered = false := by
  refine ⟨{ st with
      shutdown := true,
      total_used_ts := Infinite.elapsed now1 st,
      output := st.output ++ ["\n", SHOW_CURSOR],
      handlerRegistered := false },
    _, finish_ok now1 hg hc, finish_ok now2 ?_ hc, rfl, rfl, rfl⟩
  exact (renderGuard_congr rfl rfl).trans hg

/-- C1 witness: the amended fact at a concrete interactive state. -/
theorem finish_twice_safe_but_reemits_witness :
    Infinite.renderGuard stTty = Except.ok true ∧ stTty.hide_cursor = true ∧
      ∃ st1 st2, Infinite.finish 0 stTty = Except.ok st1 ∧
        Infinite.finish 1 st1 = Except.ok st2 ∧
        st2.output = st1.output ++ ["\n", SHOW_CURSOR] ∧
        st1.handlerRegistered = false ∧ st2.handlerRegistered = false :=
  ⟨rfl, rfl, finish_twice_safe_but_reemits stTty 0 1 rfl rfl⟩

/-- C2: a bounded indicator with `maximum = m` and `index = i`
(`0 ≤ i ≤ m`) reports `progress = i/m` (and `1` when `m ≤ 0`),
`percent = progress * 100`, and `remaining = max(m - i, 0)`. -/
theorem progress_percent_remaining_spec (st : State) (i m : ℕ)
    (hi : st.index = (i : Int)) (hm : st.max = (m : Int)) (him : i ≤ m) :
    ((m : Int) ≤ 0 → Progress.progress st = 1) ∧
      (0 < (m : Int) → Progress.progress st = (i : ℚ) / (m : ℚ)) ∧
      Progress.percent st = Progress.progress st * 100 ∧
      Progress.remaining st = max ((m : Int) - (i : Int)) 0 := by
  refine ⟨?_, ?_, rfl, ?_⟩
  · intro hle
    rw [Progress.progress, if_pos (by rw [hm]; exact hle)]
  · intro hpos
    have hm0 : ¬ st.max ≤ 0 := by rw [hm]; omega
    rw [Progress.progress, if_neg hm0, hi, hm]
    push_cast
    refine min_eq_right ((div_le_one ?_).mpr ?_)
    · exact_mod_cast hpos
    · exact_mod_cast him
  · rw [Progress.remaining, hi, hm]

/-- C2 witness: `index = 1`, `max = 4` gives `progress = 1/4`,
`percent = progress * 100`, `remaining = 3`. -/
theorem progress_percent_remaining_spec_witness :
    (stC2.index = ((1 : ℕ) : Int) ∧ stC2.max = ((4 : ℕ) : Int) ∧ (1 : ℕ) ≤ 4) ∧
      (0 < ((4 : ℕ) : Int) ∧ Progress.progress stC2 = ((1 : ℕ) : ℚ) / ((4 : ℕ) : ℚ)) ∧
      Progress.percent stC2 = Progress.progress stC2 * 100 ∧
      Progress.remaining stC2 = max (((4 : ℕ) : Int) - ((1 : ℕ) : Int)) 0 :=
  ⟨⟨rfl, rfl, by decide⟩,
   ⟨by decide,
    (progress_percent_remaining_spec stC2 1 4 rfl rfl (by decide)).2.1 (by decide)⟩,
   (progress_percent_remaining_spec stC2 1 4 rfl rfl (by decide)).2.2.1,
   (progress_percent_remaining_spec stC2 1 4 rfl rfl (by decide)).2.2.2⟩

/-- C3 counterexample: from a fresh bounded indicator (a reachable
state), `goto(-1)` drives `index` to `-1`, and `progress` becomes
`-1/100 < 0`, refuting "progress lies in [0, 1] for every reachable
state". -/
theorem progress_negative_after_goto :
    Progress.init 0 "" cfgNone = Except.ok stDisabled ∧
      Progress.progress (Progress.goto 0 (-1) stDisabled) < 0 := by
  constructor
  · rfl
  · norm_num [Progress.progress, Progress.goto, Infinite.next, Infinite.update,
      stDisabled]

/-- C3 (amended): for every state of the bounded indicator, `progress`
is at most 1 and equals exactly 1 whenever `maximum ≤ 0`; it lies in
`[0, 1]` whenever `index ≥ 0`, but a negative index (reachable through
`goto`/`next` with negative increments) makes it negative. -/
theorem progress_bounds_spec (st : State) :
    Progress.progress st ≤ 1 ∧ (st.max ≤ 0 → Progress.progress st = 1) ∧
      (0 ≤ st.index → 0 ≤ Progress.progress st) := by
  refine ⟨?_, ?_, ?_⟩
  · unfold Progress.progress
    split
    · exact le_refl 1
    · exact min_le_left _ _
  · intro h
    rw [Progress.progress, if_pos h]
  · intro h
    unfold Progress.progress
    split_ifs with hmax
    · norm_num
    · refine le_min (by norm_num) (div_nonneg ?_ ?_)
      · exact_mod_cast h
      · have h2 : (0 : Int) ≤ st.max := by omega
        exact_mod_cast h2

/-- C3 witness: the amended bounds at concrete states (`max = 0` forces
progress 1; a nonnegative index gives nonnegative progress). -/
theorem progress_bounds_spec_witness :
    (stMax0.max ≤ 0 ∧ Progress.progress stMax0 = 1) ∧
      ((0 : Int) ≤ stDisabled.index ∧ 0 ≤ Progress.progress stDisabled) :=
  ⟨⟨by decide, (progress_bounds_spec stMax0).2.1 (by decide)⟩,
   ⟨by decide, (progress_bounds_spec stDisabled).2.2 (by decide)⟩⟩

/-- C9: `avg` is `elapsed / index` when `index > 0` and `0` when
`index = 0` (no division fault for any elapsed value); `eta` equals
`ceil(avg * remaining)`, and `avg = 5/2`, `remaining = 3` give
`eta = 8`. -/
theorem avg_eta_spec (now : ℚ) (st : State) :
    (st.index = 0 → Infinite.avg now st = 0) ∧
      (0 < st.index →
        Infinite.avg now st = (Infinite.elapsed now st : ℚ) / (st.index : ℚ)) ∧
      Progress.eta now st = ⌈Infinite.avg now st * (Progress.remaining st : ℚ)⌉ ∧
      (Infinite.avg now st = 5 / 2 → Progress.remaining st = 3 →
        Progress.eta now st = 8) := by
  refine ⟨?_, ?_, rfl, ?_⟩
  · intro h
    simp [Infinite.avg, h]
  · intro h
    rw [Infinite.avg, if_pos h]
  · intro h1 h2
    rw [Progress.eta, h1, h2]
    push_cast
    norm_num [Int.ceil_eq_iff]

/-- C9 witness: at `index = 2`, `max = 5`, clock 5 the indicator has
`avg = 5/2`, `remaining = 3`, `eta = 8`; at `index = 0` the average is 0. -/
theorem avg_eta_spec_witness :
    (0 < stC9.index ∧
      Infinite.avg 5 stC9 = (Infinite.elapsed 5 stC9 : ℚ) / (stC9.index : ℚ)) ∧
      (Infinite.avg 5 stC9 = 5 / 2 ∧ Progress.remaining stC9 = 3 ∧
        Progress.eta 5 stC9 = 8) ∧
      (stDisabled.index = 0 ∧ Infinite.avg 5 stDisabled = 0) := by
  have h1 : Infinite.avg 5 stC9 = 5 / 2 := by
    norm_num [Infinite.avg, Infinite.elapsed, pyint, stC9, stDisabled]
  have h2 : Progress.remaining stC9 = 3 := rfl
  exact ⟨⟨by decide, (avg_eta_spec 5 stC9).2.1 (by decide)⟩,
         ⟨h1, h2, (avg_eta_spec 5 stC9).2.2.2 h1 h2⟩,
         ⟨rfl, (avg_eta_spec 5 stDisabled).1 rfl⟩⟩

/-- C10: when rendering is disabled, `finish()` returns the state
unchanged (the finished flag is not set, nothing is banked), so a
subsequent `next()` does not reset the start timestamp. -/
theorem finish_frame_when_disabled (now : ℚ) (st : State)
    (hd : renderDisabled st) :
    Infinite.finish now st = Except.ok st ∧
      (st.shutdown = false →
        ∀ (now2 : ℚ) (n : Int), (Infinite.next now2 n st).start_ts = st.start_ts) := by
  refine ⟨finish_skip now (renderGuard_of_disabled hd), ?_⟩
  intro hsd now2 n
  rw [next_eq, if_neg (by simp [hsd])]

/-- C10 witness: the frame condition at a concrete stream-less state. -/
theorem finish_frame_when_disabled_witness :
    renderDisabled stDisabled ∧
      Infinite.finish 0 stDisabled = Except.ok stDisabled ∧
      (stDisabled.shutdown = false ∧
        (Infinite.next 1 5 stDisabled).start_ts = stDisabled.start_ts) :=
  ⟨Or.inl rfl, (finish_frame_when_disabled 0 stDisabled (Or.inl rfl)).1,
   rfl, (finish_frame_when_disabled 0 stDisabled (Or.inl rfl)).2 rfl 1 5⟩

/-- C4: driving the bounded indicator over a sequence with `iter` sets
`maximum` to the sequence's length at entry when the length is
determinable, leaves a previously configured `maximum` unchanged when it
is not, and full consumption from `index = 0` leaves `index = N`. -/
theorem iter_sets_max_and_counts {α : Type} (sq : PySeq α) (now : ℚ) (st : State) :
    (sq.hasLen = true → (Progress.iter_entry sq st).max = (sq.elems.length : Int)) ∧
      (sq.hasLen = false → (Progress.iter_entry sq st).max = st.max) ∧
      (st.index = 0 → ∀ st', Progress.iter_run now sq st = Except.ok st' →
        st'.index = (sq.elems.length : Int)) := by
  obtain ⟨hidx, hmax⟩ := iter_entry_fields sq st
  refine ⟨fun h => by rw [hmax, if_pos h], fun h => by rw [hmax]; simp [h], ?_⟩
  intro h0 st' hrun
  unfold Progress.iter_run at hrun
  have hidx2 : (sq.elems.foldl (fun s _ => Infinite.next now 1 s)
      (Progress.iter_entry sq st)).index = (sq.elems.length : Int) := by
    rw [foldl_next_index, hidx, h0, zero_add]
  rcases finish_cases hrun with ⟨-, -, -, -, hi, -⟩ | ⟨-, h2⟩
  · rw [hi, hidx2]
  · rw [h2, hidx2]

/-- C4 witness: a three-element sequence sets `max = 3` at entry and
leaves `index = 3` after consumption; a length-less sequence leaves
`max` unchanged. -/
theorem iter_sets_max_and_counts_witness :
    ((⟨[0, 1, 2], true⟩ : PySeq ℕ).hasLen = true ∧
      (Progress.iter_entry (⟨[0, 1, 2], true⟩ : PySeq ℕ) stDisabled).max = 3) ∧
      ((⟨[], false⟩ : PySeq ℕ).hasLen = false ∧
        (Progress.iter_entry (⟨[], false⟩ : PySeq ℕ) stDisabled).max = stDisabled.max) ∧
      (stDisabled.index = 0 ∧
        Progress.iter_run 0 (⟨[0, 1, 2], true⟩ : PySeq ℕ) stDisabled =
          Except.ok { stDisabled with max := 3, index := 3 } ∧
        ({ stDisabled with max := 3, index := 3 } : State).index = 3) :=
  ⟨⟨rfl, (iter_sets_max_and_counts (⟨[0, 1, 2], true⟩ : PySeq ℕ) 0 stDisabled).1 rfl⟩,
   ⟨rfl, (iter_sets_max_and_counts (⟨[], false⟩ : PySeq ℕ) 0 stDisabled).2.1 rfl⟩,
   ⟨rfl, rfl,
    (iter_sets_max_and_counts (⟨[0, 1, 2], true⟩ : PySeq ℕ) 0 stDisabled).2.2 rfl
      { stDisabled with max := 3, index := 3 } rfl⟩⟩

/-- C5: with rendering enabled, `write(s)` emits `\r` + `message` + `s`
right-padded to the width tracked before the call and updates the
tracked width to `max(previous, len(s))`; over any run of writes the
emitted lines have non-decreasing lengths, so no line is shorter than an
earlier one. -/
theorem write_pads_and_never_shrinks (st : State) (ss : List String)
    (hg : Infinite.renderGuard st = Except.ok true) :
    (∀ s : String, Infinite.write s st = Except.ok
        { st with output := st.output ++ [writeLine st.message st.width s],
                  width := Nat.max st.width s.length }) ∧
      ∃ st', writeRun ss st = Except.ok st' ∧
        st'.output = st.output ++ emittedLines st.message st.width ss ∧
        List.Pairwise (fun a b => a.length ≤ b.length)
          (emittedLines st.message st.width ss) := by
  refine ⟨fun s => write_ok s hg, ?_⟩
  obtain ⟨st', h1, h2⟩ := writeRun_ok ss hg
  exact ⟨st', h1, h2, emittedLines_pairwise st.message ss st.width⟩

/-- C5 witness: the write specification at a concrete interactive state
and a concrete run. -/
theorem write_pads_and_never_shrinks_witness :
    Infinite.renderGuard stTty = Except.ok true ∧
      ((∀ s : String, Infinite.write s stTty = Except.ok
          { stTty with output := stTty.output ++ [writeLine stTty.message stTty.width s],
                       width := Nat.max stTty.width s.length }) ∧
        ∃ st', writeRun ["abc", "d"] stTty = Except.ok st' ∧
          st'.output = stTty.output ++ emittedLines stTty.message stTty.width ["abc", "d"] ∧
          List.Pairwise (fun a b => a.length ≤ b.length)
            (emittedLines stTty.message stTty.width ["abc", "d"])) :=
  ⟨rfl, write_pads_and_never_shrinks stTty ["abc", "d"] rfl⟩

/-- C6 counterexample: after `write "abc"` (tracked width 3) and
`finish()`, the indicator is finished, and the `next()` that resumes it
leaves the tracked width at 3 rather than resetting it to 0, refuting
"reset to 0 at restart". -/
theorem width_persists_across_restart :
    ((Infinite.write "abc" stTty).bind (Infinite.finish 0)).map
        (fun st => st.shutdown) = Except.ok true ∧
      ((Infinite.write "abc" stTty).bind (Infinite.finish 0)).map
        (fun st => (Infinite.next 0 1 st).width) = Except.ok 3 :=
  ⟨rfl, rfl⟩

/-- C6 (amended): the tracked rendered width only grows (`write` never
decreases it) and is reset to 0 at construction; `next()` on a finished
indicator restarts timing but leaves the width unchanged, so it carries
over into the resumed run. -/
theorem width_reset_at_construction_only :
    (∀ (now : ℚ) (msg : String) (cfg : Config) (st0 : State),
        Infinite.init now msg cfg = Except.ok st0 → st0.width = 0) ∧
      (∀ (s : String) (st st' : State),
        Infinite.write s st = Except.ok st' → st.width ≤ st'.width) ∧
      (∀ (now : ℚ) (n : Int) (st : State), (Infinite.next now n st).width = st.width) := by
  refine ⟨fun now msg cfg st0 h => init_width h, ?_,
    fun now n st => (next_frame now n st).1⟩
  intro s st st' h
  rcases write_cases h with ⟨-, h2⟩ | ⟨-, h2⟩
  · subst h2; exact le_nat_max_left _ _
  · subst h2; exact le_refl _

/-- C6 witness: the amended width facts at concrete states. -/
theorem width_reset_at_construction_only_witness :
    (Infinite.init 0 "" cfgNone = Except.ok stDisabled ∧ stDisabled.width = 0) ∧
      (Infinite.write "ab" stTty = Except.ok stW ∧ stTty.width ≤ stW.width) ∧
      (Infinite.next 0 1 stTty).width = stTty.width :=
  ⟨⟨rfl, width_reset_at_construction_only.1 0 "" cfgNone stDisabled rfl⟩,
   ⟨rfl, width_reset_at_construction_only.2.1 "ab" stTty stW rfl⟩,
   width_reset_at_construction_only.2.2 0 1 stTty⟩

/-- C7: when the stream is absent, or non-interactive with TTY-checking
enabled, construction writes nothing and registers no exit handler, and
no sequence of operations (write, writeln, clearln, update, start,
finish, next, goto) ever writes to the stream or registers a handler. -/
theorem no_output_when_disabled (now : ℚ) (msg : String) (cfg : Config)
    (hd : configDisabled cfg) :
    ∃ st0, Infinite.init now msg cfg = Except.ok st0 ∧ st0.output = [] ∧
      st0.handlerRegistered = false ∧
      ∀ ops : List Op, ∃ st', runOps ops st0 = Except.ok st' ∧
        st'.output = [] ∧ st'.handlerRegistered = false := by
  refine ⟨_, init_disabled now msg hd, rfl, rfl, ?_⟩
  intro ops
  have hdst : renderDisabled
      { index := 0, start_ts := now, total_used_ts := 0, width := 0,
        message := msg, shutdown := false, file := cfg.file,
        check_tty := cfg.check_tty, hide_cursor := cfg.hide_cursor,
        max := 100, output := [], handlerRegistered := false } := by
    rcases hd with h | ⟨f, hf, hi, hc⟩
    · exact Or.inl h
    · exact Or.inr ⟨f, hf, hi, hc⟩
  obtain ⟨st', h1, h2, h3⟩ := runOps_silent ops hdst
  exact ⟨st', h1, h2, h3⟩

/-- C7 witness: a non-interactive stream with TTY-checking enabled stays
silent through construction and an arbitrary operation sequence. -/
theorem no_output_when_disabled_witness :
    configDisabled cfgNonTty ∧
      ∃ st0, Infinite.init 0 "Loading" cfgNonTty = Except.ok st0 ∧ st0.output = [] ∧
        st0.handlerRegistered = false ∧
        ∀ ops : List Op, ∃ st', runOps ops st0 = Except.ok st' ∧
          st'.output = [] ∧ st'.handlerRegistered = false :=
  ⟨Or.inr ⟨⟨some false⟩, rfl, rfl, rfl⟩,
   no_output_when_disabled 0 "Loading" cfgNonTty (Or.inr ⟨⟨some false⟩, rfl, rfl, rfl⟩)⟩

/-- C8: `elapsed` is monotone in the clock reading, and after `finish()`
(rendering enabled) followed by `next()`, the elapsed value right after
the `next()` equals the banked total — the live component is reset while
the accumulated portion (banked at `finish()`) is preserved. -/
theorem elapsed_monotone_and_resets :
    (∀ (st : State) (now1 now2 : ℚ), now1 ≤ now2 →
        Infinite.elapsed now1 st ≤ Infinite.elapsed now2 st) ∧
      (∀ (st st1 : State) (now1 now2 : ℚ),
        Infinite.renderGuard st = Except.ok true →
        Infinite.finish now1 st = Except.ok st1 →
        Infinite.elapsed now2 (Infinite.next now2 1 st1) = st1.total_used_ts ∧
          (Infinite.next now2 1 st1).total_used_ts = st1.total_used_ts ∧
          st1.total_used_ts = Infinite.elapsed now1 st) := by
  constructor
  · intro st now1 now2 h
    unfold Infinite.elapsed
    have h2 := pyint_mono (sub_le_sub_right h st.start_ts)
    omega
  · intro st st1 now1 now2 hg hfin
    rcases finish_cases hfin with ⟨-, hsd, htot, -⟩ | ⟨hg2, -⟩
    · have hnext : Infinite.next now2 1 st1 =
          { st1 with start_ts := now2, shutdown := false, index := st1.index + 1 } := by
        rw [next_eq, if_pos hsd]
      refine ⟨?_, ?_, htot⟩
      · rw [hnext]
        show pyint (now2 - now2) + st1.total_used_ts = st1.total_used_ts
        rw [sub_self, pyint_zero, zero_add]
      · rw [hnext]
    · exact absurd (hg.symm.trans hg2) (by simp)

/-- C8 witness: monotonicity and the reset identity at concrete clock
readings over an interactive stream. -/
theorem elapsed_monotone_and_resets_witness :
    ((0 : ℚ) ≤ 1 ∧ Infinite.elapsed 0 stTty ≤ Infinite.elapsed 1 stTty) ∧
      (Infinite.renderGuard stTty = Except.ok true ∧
        Infinite.finish 0 stTty = Except.ok stTtyFin ∧
        (Infinite.elapsed 1 (Infinite.next 1 1 stTtyFin) = stTtyFin.total_used_ts ∧
          (Infinite.next 1 1 stTtyFin).total_used_ts = stTtyFin.total_used_ts ∧
          stTtyFin.total_used_ts = Infinite.elapsed 0 stTty)) := by
  have hfin : Infinite.finish 0 stTty = Except.ok stTtyFin := by
    rw [@finish_ok stTty 0 rfl rfl]
    norm_num [stTtyFin, stTty, stDisabled, Infinite.elapsed, pyint]
  exact ⟨⟨by norm_num, elapsed_monotone_and_resets.1 stTty 0 1 (by norm_num)⟩,
         rfl, hfin, elapsed_monotone_and_resets.2 stTty stTtyFin 0 1 rfl hfin⟩

end ProgressPkg
